import Mathlib

/-!
Verification of the aa-recruit event-extraction pipeline.

This file gives a shallow embedding of `recruit/character_event.py`,
`recruit/character_event_converters.py` and the grouping operation of
`recruit/views.py`, and proves or refutes the frozen claims about them.

Modelling conventions:
* Django model rows become Lean structures; a converter's queryset
  (`Model.objects.filter(character__in=character_query_set)`) becomes an
  explicit list argument filtered by membership of the owned-character list.
* `datetime` values are `Nat`, `Decimal`/float money values are `Rat`
  (exact arithmetic; `Decimal("0.1")` is exactly 1/10 in base-10 Decimal,
  so the boundary tests translate exactly).
* Nullable fields become `Option`; Python truthiness of a string is
  non-emptiness, of a number non-zero-ness, of a model instance non-None-ness.
* The external NPC classifier (`EveEntity.is_npc` / `EveEntity.is_npc_id`,
  from django-eveuniverse, keyed on the entity id) is an abstract predicate
  `npc : Nat → Bool` passed to every converter.
* Code that can raise is embedded in `Except String`.
-/

namespace Recruit

/-- An owned character (allianceauth `EveCharacter` reached through the
memberaudit `Character` row): its EVE character id and name.  The converters
build `character_ids` as the set of these ids
(`values_list("eve_character__character_id", flat=True)`). -/
structure Character where
  id : Nat
  name : String
deriving DecidableEq

/-- The category of an eveuniverse `EveEntity` / memberaudit `MailEntity`. -/
inductive EntityCategory where
  | character
  | corporation
  | alliance
  | mailingList
  | unknown
deriving DecidableEq

/-- An eveuniverse `EveEntity`: id, display name and category.
`str(entity)` renders the name. -/
structure EveEntity where
  id : Nat
  name : String
  category : EntityCategory
deriving DecidableEq

/-- `EveEntity.is_character`: the category is CHARACTER. -/
def EveEntity.is_character (e : EveEntity) : Bool :=
  decide (e.category = EntityCategory.character)

/-- A memberaudit `MailEntity` (sender or recipient of a mail): id, name,
the `name_plus` display property, and category. -/
structure MailEntity where
  id : Nat
  name : String
  name_plus : String
  category : EntityCategory
deriving DecidableEq

/-- The `EveEntity` table, for `EveEntity.objects.get(pk=...)` in the mail
converter: a row is reconstructed from its primary key (which is its id),
so the fetched entity's id always equals the requested pk. -/
structure EntityDb where
  entityName : Nat → String
  entityCategory : Nat → EntityCategory

/-- `EveEntity.objects.get(pk=i)`. -/
def EntityDb.get (db : EntityDb) (i : Nat) : EveEntity :=
  { id := i, name := db.entityName i, category := db.entityCategory i }

/-- The CharacterEvent DTO of `recruit/character_event.py`:
a frozen dataclass with exactly these six fields. -/
structure CharacterEvent where
  recruit : Character
  other_entity : EveEntity
  summary : Option String := none
  details : Option String := none
  timestamp : Option Nat := none
  isk_value : Option Rat := none
deriving DecidableEq

/-- The attribute names the `CharacterEvent` dataclass declares
(`slots=True`): instance attribute lookup succeeds for exactly these names
and raises `AttributeError` for every other name. -/
def characterEventSlots : List String :=
  ["recruit", "other_entity", "summary", "details", "timestamp", "isk_value"]

/-- Python `f"{standing:+}"`: the standing rendered with an explicit sign.
Standings are modelled as integers (the actual field is a float; the sign
handling is identical). -/
def signed_standing (s : Int) : String :=
  if s < 0 then toString s else "+" ++ toString s

/-- A memberaudit `CharacterContact` row. -/
structure CharacterContact where
  character : Character
  eve_entity : EveEntity
  standing : Int
deriving DecidableEq

/-- `_get_contact_events`: the queryset filters to contacts of owned
characters and excludes contacts whose entity id is an owned character id;
the loop then skips non-characters and NPCs and emits one event per
surviving contact, with no timestamp and no isk_value. -/
def get_contact_events (owned : List Character) (npc : Nat → Bool)
    (contacts : List CharacterContact) : List CharacterEvent :=
  let character_query_ids := owned.map Character.id
  (contacts.filter fun cc =>
      decide (cc.character ∈ owned) &&
        ! decide (cc.eve_entity.id ∈ character_query_ids)).filterMap
    fun cc =>
      if ! cc.eve_entity.is_character then none
      else if npc cc.eve_entity.id then none
      else
        some { recruit := cc.character, other_entity := cc.eve_entity,
               summary := some ("Standings " ++ signed_standing cc.standing),
               details := none, timestamp := none, isk_value := none }

/-- A memberaudit `CharacterMail` row with its sender and recipients. -/
structure CharacterMail where
  character : Character
  sender : MailEntity
  recipients : List MailEntity
  subject : String
  body_html : String
  is_read : Bool
  timestamp : Option Nat
deriving DecidableEq

/-- The mail summary:
`Mail sender.name->semicolon-joined recipient name_plus values`. -/
def mail_summary (m : CharacterMail) : String :=
  "Mail " ++ m.sender.name ++ "->" ++
    String.intercalate ";" (m.recipients.map MailEntity.name_plus)

/-- `_get_mail_details`: the formatted mail body (unread marker, subject,
from, to, html body). -/
def get_mail_details (m : CharacterMail) : String :=
  (if m.is_read then "" else "Unread:") ++ "Subject:" ++ m.subject ++ "\n" ++
    "From:" ++ m.sender.name_plus ++ "\n" ++
    "To:" ++ String.intercalate "," (m.recipients.map MailEntity.name_plus) ++
    "\n" ++ m.body_html ++ "\n"

/-- `_get_mail_events`: for each owned character's mail, the participant
list is `recipients + [sender]` (the sender is appended unconditionally,
even when it is already a recipient); a participant is skipped when its id
is an owned character id, or when it is a CHARACTER-category entity with an
NPC id; every surviving participant yields one event whose other_entity is
the `EveEntity` row fetched by the participant's id. -/
def get_mail_events (db : EntityDb) (owned : List Character) (npc : Nat → Bool)
    (mails : List CharacterMail) : List CharacterEvent :=
  let character_ids := owned.map Character.id
  ((mails.filter fun m => decide (m.character ∈ owned)).map fun m =>
    let mail_entities := m.recipients ++ [m.sender]
    let s := mail_summary m
    mail_entities.filterMap fun me =>
      if decide (me.id ∈ character_ids) then none
      else if decide (me.category = EntityCategory.character) && npc me.id then
        none
      else
        some { recruit := m.character, other_entity := db.get me.id,
               summary := some s, details := some (get_mail_details m),
               timestamp := m.timestamp, isk_value := none }).flatten

/-- The loop shared by `_counterparty` in `_get_character_contracts`
(candidates `(assignee, acceptor, issuer)`) and in
`_get_wallet_journal_entries` (candidates `(first_party, second_party)`):
skip a candidate that is absent, or not a character, or an NPC, or an
owned character; return the first survivor. -/
def first_qualifying (character_ids : List Nat) (npc : Nat → Bool) :
    List (Option EveEntity) → Option EveEntity
  | [] => none
  | List.cons none rest => first_qualifying character_ids npc rest
  | List.cons (some e) rest =>
    if ! e.is_character || npc e.id then first_qualifying character_ids npc rest
    else if decide (e.id ∈ character_ids) then
      first_qualifying character_ids npc rest
    else some e

/-- Availability of a memberaudit `CharacterContract` (a non-null choices
field, so `get_availability_display()` always returns one of these
non-empty labels). -/
inductive Availability where
  | alliance
  | corporation
  | personal
  | publicContract
deriving DecidableEq

/-- `get_availability_display()`. -/
def Availability.display : Availability → String
  | Availability.alliance => "alliance"
  | Availability.corporation => "corporation"
  | Availability.personal => "private"
  | Availability.publicContract => "public"

/-- A contract item joined with its type and market price:
`quantity`, `raw_quantity` (negative for requested/returned items),
`eve_type__market_price__average_price` (NULL when no price is recorded),
`eve_type.id` and the `name_display` property. -/
structure ContractItem where
  quantity : Nat
  raw_quantity : Int
  average_price : Option Rat
  type_id : Nat
  name_display : String
deriving DecidableEq

/-- A memberaudit `CharacterContract` row.  `summary_str` is the result of
the external `contract.summary()` method and `status_display` the result of
`get_status_display()`. -/
structure CharacterContract where
  character : Character
  issuer : Option EveEntity
  assignee : Option EveEntity
  acceptor : Option EveEntity
  availability : Availability
  status_display : String
  summary_str : String
  title : String
  price : Option Rat
  reward : Option Rat
  collateral : Option Rat
  buyout : Option Rat
  date_completed : Option Nat
  date_expired : Option Nat
  date_accepted : Option Nat
  date_issued : Option Nat
  items : List ContractItem
deriving DecidableEq

/-- `_counterparty` of the contracts converter: the first of assignee,
acceptor, issuer that exists, is a character, is not an NPC and is not
owned. -/
def contract_counterparty (character_ids : List Nat) (npc : Nat → Bool)
    (c : CharacterContract) : Option EveEntity :=
  first_qualifying character_ids npc [c.assignee, c.acceptor, c.issuer]

/-- Python `str.capitalize` on the lowercase availability labels, and
`str.title` on the lowercase space-separated labels used here, agree with
capitalizing each space-separated word. -/
def title_case (s : String) : String :=
  String.intercalate " " ((s.splitOn " ").map String.capitalize)

/-- `_contract_summary`: appends the non-empty `contract.summary()` string,
the issuer label when the issuer is present, and — because
`get_availability_display()` is always a non-empty string — an availability
part that reads `contract.assignee.name` unconditionally: when the assignee
is absent this attribute access raises `AttributeError` (`NoneType` has no
attribute `name`).  The parts are pipe-joined. -/
def contract_summary (c : CharacterContract) : Except String String :=
  let parts : List String := []
  let parts := if c.summary_str ≠ "" then parts ++ [c.summary_str] else parts
  let parts :=
    match c.issuer with
    | some issuer => parts ++ ["Contractor:" ++ issuer.name]
    | none => parts
  let availability := c.availability.display
  if availability ≠ "" then
    match c.assignee with
    | some a =>
      Except.ok (String.intercalate "|"
        (parts ++ ["Availability:" ++ availability.capitalize ++ " - " ++ a.name]))
    | none => Except.error "AttributeError: NoneType object has no attribute name"
  else Except.ok (String.intercalate "|" parts)

/-- Python `html.escape` (with quoting), character by character. -/
def escape_char (c : Char) : String :=
  if c = '&' then "&amp;"
  else if c = '<' then "&lt;"
  else if c = '>' then "&gt;"
  else if c = '"' then "&quot;"
  else if c = '\'' then "&#x27;"
  else String.singleton c

/-- Python `html.escape` with default quote handling. -/
def html_escape (s : String) : String :=
  String.join (s.data.map escape_char)

/-- `_contract_details`: title line (when non-empty, HTML-escaped), status
line, one combined ISK-fields line (each field only when truthy), then one
line per item.  Numeric rendering abstracts Python's float/Decimal `str`. -/
def contract_details (c : CharacterContract) (total : Option Rat) : String :=
  let parts : List String := []
  let parts :=
    if c.title ≠ "" then parts ++ ["Info by Issuer:" ++ html_escape c.title]
    else parts
  let parts := parts ++ ["Status:" ++ title_case c.status_display]
  let isk_fields : List String := []
  let isk_fields :=
    match total with
    | some v => if v ≠ 0 then isk_fields ++ ["ISK Value:" ++ toString v] else isk_fields
    | none => isk_fields
  let isk_fields :=
    match c.price with
    | some v => if v ≠ 0 then isk_fields ++ ["Price:" ++ toString v] else isk_fields
    | none => isk_fields
  let isk_fields :=
    match c.reward with
    | some v => if v ≠ 0 then isk_fields ++ ["Reward:" ++ toString v] else isk_fields
    | none => isk_fields
  let isk_fields :=
    match c.collateral with
    | some v => if v ≠ 0 then isk_fields ++ ["Collateral:" ++ toString v] else isk_fields
    | none => isk_fields
  let isk_fields :=
    match c.buyout with
    | some v => if v ≠ 0 then isk_fields ++ ["Buyout:" ++ toString v] else isk_fields
    | none => isk_fields
  let parts :=
    if isk_fields ≠ [] then parts ++ [String.intercalate ", " isk_fields] else parts
  let parts := parts ++ c.items.map (fun item =>
    toString item.quantity ++ "x <a href=https://evetycoon.com/market/" ++
      toString item.type_id ++ ">" ++ item.name_display ++ "</a>")
  String.intercalate "\n" parts

/-- `_isk_value`: the SQL aggregate
`Sum(quantity * average_price)` over `items.exclude(raw_quantity__lt=0)`.
SQL `SUM` skips rows whose product is NULL (items without a recorded
average price) and returns NULL when no row contributes, which Django hands
back as `None`. -/
def isk_value (items : List ContractItem) : Option Rat :=
  let values := (items.filter fun it => ! decide (it.raw_quantity < 0)).filterMap
    fun it => it.average_price.map fun p => (it.quantity : Rat) * p
  if values.isEmpty then none else some values.sum

/-- `contract.date_completed or contract.date_expired or contract.date_accepted
or contract.date_issued` (datetimes are always truthy). -/
def contract_timestamp (c : CharacterContract) : Option Nat :=
  c.date_completed.orElse fun _ =>
    c.date_expired.orElse fun _ =>
      c.date_accepted.orElse fun _ => c.date_issued

/-- The loop of `_get_character_contracts`: a contract without a qualifying
counterparty is skipped; otherwise the event is built, which raises (and so
aborts the whole scan) when `_contract_summary` raises. -/
def contracts_loop (character_ids : List Nat) (npc : Nat → Bool) :
    List CharacterContract → Except String (List CharacterEvent)
  | [] => Except.ok []
  | List.cons c rest =>
    match contract_counterparty character_ids npc c with
    | none => contracts_loop character_ids npc rest
    | some other =>
      let total := isk_value c.items
      match contract_summary c with
      | Except.error e => Except.error e
      | Except.ok s =>
        match contracts_loop character_ids npc rest with
        | Except.error e => Except.error e
        | Except.ok evs =>
          Except.ok
            ({ recruit := c.character, other_entity := other,
               summary := some s, details := some (contract_details c total),
               timestamp := contract_timestamp c, isk_value := total } :: evs)

/-- `_get_character_contracts`. -/
def get_character_contracts (owned : List Character) (npc : Nat → Bool)
    (contracts : List CharacterContract) : Except String (List CharacterEvent) :=
  contracts_loop (owned.map Character.id) npc
    (contracts.filter fun c => decide (c.character ∈ owned))

/-- A memberaudit `CharacterWalletJournalEntry` row.
`context_id_type_display` is the result of `get_context_id_type_display()`. -/
structure CharacterWalletJournalEntry where
  character : Character
  first_party : Option EveEntity
  second_party : Option EveEntity
  ref_type : String
  context_id : Option Nat
  context_id_type_display : String
  reason : String
  date : Nat
  amount : Rat
deriving DecidableEq

/-- `_counterparty` of the wallet journal converter. -/
def journal_counterparty (character_ids : List Nat) (npc : Nat → Bool)
    (e : CharacterWalletJournalEntry) : Option EveEntity :=
  first_qualifying character_ids npc [e.first_party, e.second_party]

/-- The details construction of `_get_wallet_journal_entries`, verbatim:
`details += f"{details}\nContext:..."` and `details += f"{details}\nReason:..."`
append the current value of `details` to itself before the new line; an
empty final string becomes `None`. -/
def journal_details (e : CharacterWalletJournalEntry) : Option String :=
  let details := ""
  let details :=
    match e.context_id with
    | some cid =>
      if cid ≠ 0 then
        details ++ (details ++ "\nContext:" ++ e.context_id_type_display ++
          " (" ++ toString cid ++ ")")
      else details
    | none => details
  let details :=
    if e.reason ≠ "" then details ++ (details ++ "\nReason:" ++ e.reason)
    else details
  if details = "" then none else some details

/-- The per-entry body of `_get_wallet_journal_entries`: skip when no
qualifying counterparty or when the reference type is not
"player_donation"; otherwise one event with the humanized ref type as
summary, the (buggy) details, the entry date and the signed amount. -/
def journal_event (character_ids : List Nat) (npc : Nat → Bool)
    (e : CharacterWalletJournalEntry) : Option CharacterEvent :=
  match journal_counterparty character_ids npc e with
  | none => none
  | some other =>
    if e.ref_type ≠ "player_donation" then none
    else
      some { recruit := e.character, other_entity := other,
             summary := some (title_case (e.ref_type.replace "_" " ")),
             details := journal_details e,
             timestamp := some e.date, isk_value := some e.amount }

/-- `_get_wallet_journal_entries`. -/
def get_wallet_journal_entries (owned : List Character) (npc : Nat → Bool)
    (entries : List CharacterWalletJournalEntry) : List CharacterEvent :=
  (entries.filter fun e => decide (e.character ∈ owned)).filterMap
    (journal_event (owned.map Character.id) npc)

/-- A memberaudit `CharacterWalletTransaction` row joined with its client
and its type's market price (`average_price` is NULL when no price is
recorded). -/
structure CharacterWalletTransaction where
  character : Character
  client : Option EveEntity
  quantity : Nat
  unit_price : Rat
  average_price : Option Rat
  eve_type_name : String
  is_buy : Bool
  date : Nat
deriving DecidableEq

/-- `_counterparty` of the wallet transaction converter: the client, when it
is a character, not an NPC and not owned. -/
def tx_counterparty (character_ids : List Nat) (npc : Nat → Bool)
    (tx : CharacterWalletTransaction) : Option EveEntity :=
  match tx.client with
  | none => none
  | some client =>
    if ! client.is_character || npc client.id then none
    else if decide (client.id ∈ character_ids) then none
    else some client

/-- `_ratio`: `None` when the average price is absent or non-positive, else
`Decimal(unit_price) / Decimal(market_price)`.  With exact rationals and a
positive divisor the guarded `ArithmeticError`/`ValueError` path (which the
code turns into `None`, i.e. into the same skip) cannot fire. -/
def price_quotient (tx : CharacterWalletTransaction) : Option Rat :=
  match tx.average_price with
  | none => none
  | some market_price =>
    if market_price ≤ 0 then none else some (tx.unit_price / market_price)

/-- `f"{x:.1f}"` of the percentage, modelled by rounding to one decimal. -/
def one_decimal (r : Rat) : String :=
  let t : Int := round (r * 10)
  toString (t / 10) ++ "." ++ toString (t % 10).natAbs

/-- `str` of a nullable number. -/
def option_price_str (o : Option Rat) : String :=
  match o with
  | some v => toString v
  | none => "None"

/-- The per-transaction body of `_get_wallet_transactions`: skip when no
qualifying client, when the ratio is unknown, when
`Decimal("0.1") < ratio < Decimal("2")`, or when
`quantity * unit_price < 10_000_000`; else one event. -/
def wallet_tx_event (character_ids : List Nat) (npc : Nat → Bool)
    (tx : CharacterWalletTransaction) : Option CharacterEvent :=
  match tx_counterparty character_ids npc tx with
  | none => none
  | some other =>
    match price_quotient tx with
    | none => none
    | some r =>
      if (1 : Rat)/10 < r ∧ r < 2 then none
      else
        let total_price := (tx.quantity : Rat) * tx.unit_price
        if total_price < 10000000 then none
        else
          let side := if tx.is_buy then "Buy" else "Sell"
          some { recruit := tx.character, other_entity := other,
                 summary := some (side ++ " " ++ toString tx.quantity ++ "x " ++
                   tx.eve_type_name),
                 details := some ("Unit:" ++ toString tx.unit_price ++ " Avg:" ++
                   option_price_str tx.average_price ++ " (" ++
                   one_decimal (r * 100) ++ "% of avg)"),
                 timestamp := some tx.date,
                 isk_value := some (tx.unit_price * (tx.quantity : Rat)) }

/-- `_get_wallet_transactions`. -/
def get_wallet_transactions (owned : List Character) (npc : Nat → Bool)
    (txs : List CharacterWalletTransaction) : List CharacterEvent :=
  (txs.filter fun tx => decide (tx.character ∈ owned)).filterMap
    (wallet_tx_event (owned.map Character.id) npc)

/-- The five source tables plus the `EveEntity` table used by the mail
converter. -/
structure Database where
  contacts : List CharacterContact
  mails : List CharacterMail
  contracts : List CharacterContract
  journal : List CharacterWalletJournalEntry
  transactions : List CharacterWalletTransaction
  entities : EntityDb

/-- `get_all_events`: the five converters run in the fixed order contacts,
mail, contracts, wallet journal, wallet transactions and their outputs are
chained; an exception in the contracts scan propagates. -/
def get_all_events (db : Database) (owned : List Character) (npc : Nat → Bool) :
    Except String (List CharacterEvent) :=
  let contact_events := get_contact_events owned npc db.contacts
  let mail_events := get_mail_events db.entities owned npc db.mails
  match get_character_contracts owned npc db.contracts with
  | Except.error e => Except.error e
  | Except.ok character_contract_events =>
    let wallet_events := get_wallet_journal_entries owned npc db.journal
    let wallet_transaction_events := get_wallet_transactions owned npc db.transactions
    Except.ok (contact_events ++ mail_events ++ character_contract_events ++
      wallet_events ++ wallet_transaction_events)

/-- The `AttributeError` raised by `_group_character_events`. -/
def attribute_error_msg : String :=
  "AttributeError: CharacterEvent object has no attribute other_character_id"

/-- `_group_character_events` of `recruit/views.py`.  The loop body reads
`character_event.other_character_id` (and `.other_character_name`), but the
`CharacterEvent` dataclass declares no such slot (see
`characterEventSlots`), so the first iteration raises `AttributeError`; the
grouping, per-group timestamp sort and evewho-URL construction further down
the function are unreachable for a nonempty input (the then-branch below is
dead code).  With no events the loop never runs and the empty result list
is returned. -/
def group_character_events (events : List CharacterEvent) :
    Except String (List (String × String × List CharacterEvent)) :=
  match events with
  | [] => Except.ok []
  | List.cons _ _ =>
    if characterEventSlots.contains "other_character_id" then Except.ok []
    else Except.error attribute_error_msg

/-- The census the mail claim counts by: the distinct ids among the
participants (`recipients + [sender]`) that survive the converter's skip
conditions (not owned; not an NPC character entity). -/
def mail_participant_qualifies (character_ids : List Nat) (npc : Nat → Bool)
    (me : MailEntity) : Bool :=
  ! decide (me.id ∈ character_ids) &&
    ! (decide (me.category = EntityCategory.character) && npc me.id)

/-- The distinct qualifying participant ids of a mail. -/
def mail_outside_participants (character_ids : List Nat) (npc : Nat → Bool)
    (m : CharacterMail) : List Nat :=
  (((m.recipients ++ [m.sender]).filter
      (mail_participant_qualifies character_ids npc)).map MailEntity.id).dedup

/-! ### Concrete inputs used by the claim theorems -/

/-- A single event handed to the grouping operation. -/
def c1_event : CharacterEvent :=
  { recruit := { id := 100, name := "Main Pilot" },
    other_entity := { id := 9001, name := "Other Guy",
                      category := EntityCategory.character },
    summary := some "Standings +5" }

/-- An undated event for a counterparty. -/
def c8_event_undated : CharacterEvent :=
  { recruit := { id := 1, name := "Main" },
    other_entity := { id := 9001, name := "Other",
                      category := EntityCategory.character },
    timestamp := none }

/-- A dated event for the same counterparty as `c8_event_undated`. -/
def c8_event_dated : CharacterEvent :=
  { recruit := { id := 1, name := "Main" },
    other_entity := { id := 9001, name := "Other",
                      category := EntityCategory.character },
    timestamp := some 5 }

/-- A wallet journal entry with both a context id and a reason, whose
counterparty (first party) qualifies and whose ref type is the donation
one, so it produces an event. -/
def c2_entry : CharacterWalletJournalEntry :=
  { character := { id := 1, name := "Main" },
    first_party := some { id := 2002, name := "Benefactor",
                          category := EntityCategory.character },
    second_party := some { id := 1, name := "Main",
                           category := EntityCategory.character },
    ref_type := "player_donation",
    context_id := some 7,
    context_id_type_display := "Structure",
    reason := "gift",
    date := 1700000000,
    amount := 5000000 }

/-- A contract with no assignee whose acceptor is a qualifying outside
character (the situation of any accepted public contract). -/
def c3_contract : CharacterContract :=
  { character := { id := 1, name := "Main" },
    issuer := some { id := 1, name := "Main", category := EntityCategory.character },
    assignee := none,
    acceptor := some { id := 60, name := "Acceptor",
                       category := EntityCategory.character },
    availability := Availability.publicContract,
    status_display := "in progress",
    summary_str := "Courier (in progress)",
    title := "",
    price := none, reward := none, collateral := none, buyout := none,
    date_completed := none, date_expired := none,
    date_accepted := some 42, date_issued := some 40,
    items := [] }

/-- A mail whose sender also appears in its recipient list; the sender is
an outside, non-NPC character. -/
def c4_mail : CharacterMail :=
  { character := { id := 1, name := "Main" },
    sender := { id := 50, name := "Dup", name_plus := "Dup",
                category := EntityCategory.character },
    recipients := [{ id := 50, name := "Dup", name_plus := "Dup",
                     category := EntityCategory.character }],
    subject := "hi", body_html := "body", is_read := true,
    timestamp := some 10 }

/-- Another assignee-less contract with a qualifying acceptor, for the
contract event-count claim. -/
def c7_bad_contract : CharacterContract :=
  { character := { id := 1, name := "Main" },
    issuer := none,
    assignee := none,
    acceptor := some { id := 61, name := "Acceptor",
                       category := EntityCategory.character },
    availability := Availability.publicContract,
    status_display := "finished",
    summary_str := "Item Exchange (finished)",
    title := "",
    price := none, reward := none, collateral := none, buyout := none,
    date_completed := some 99, date_expired := none,
    date_accepted := none, date_issued := some 90,
    items := [] }

/-- A contact of an owned character with an outside character target. -/
def c10_contact : CharacterContact :=
  { character := { id := 1, name := "Main" },
    eve_entity := { id := 9001, name := "Target",
                    category := EntityCategory.character },
    standing := 5 }

/-! ### Claim theorems -/

/-- Claim C1 (code bug): the grouping operation is claimed to group events
by the pair (other_entity identity, other_entity display name) and return
the groups; in fact `_group_character_events` reads the attribute
`other_character_id`, which is not one of the `CharacterEvent` dataclass's
declared slots, so on any event at all it raises `AttributeError` instead
of returning groups. -/
theorem c1_grouping_raises :
    (characterEventSlots.contains "other_character_id") = false ∧
    group_character_events [c1_event] = Except.error attribute_error_msg := by
  constructor
  · decide
  · rfl

/-- Claim C8 (code bug): within-group ascending timestamp sorting (undated
events last, stable) never happens: handed a group's worth of events — an
undated one followed by a dated one for the same counterparty — the
grouping operation raises `AttributeError` before any per-group sort runs. -/
theorem c8_group_sort_unreachable :
    group_character_events [c8_event_undated, c8_event_dated] =
      Except.error attribute_error_msg := by
  rfl

/-- Claim C2 (code bug): the wallet journal details are claimed to carry
the context line and the reason line each exactly once; in fact
`details += f"{details}\n..."` appends the accumulated string to itself, so
when both context id and reason are present the produced event's details
contain the context line twice. -/
theorem c2_journal_details_duplicated :
    journal_details c2_entry =
      some "\nContext:Structure (7)\nContext:Structure (7)\nReason:gift" ∧
    (get_wallet_journal_entries [{ id := 1, name := "Main" }] (fun _ => false)
        [c2_entry]).map CharacterEvent.details =
      [some "\nContext:Structure (7)\nContext:Structure (7)\nReason:gift"] := by
  constructor
  · rfl
  · rfl

/-- Claim C3 (code bug): building a contract event's summary is claimed to
be total, an assignee-less contract still yielding a summary; in fact the
availability part reads `contract.assignee.name` unconditionally, so for a
contract with a qualifying counterparty (its acceptor) but no assignee the
summary construction raises `AttributeError`. -/
theorem c3_contract_summary_raises :
    (contract_counterparty [1] (fun _ => false) c3_contract).isSome = true ∧
    contract_summary c3_contract =
      Except.error "AttributeError: NoneType object has no attribute name" := by
  constructor
  · rfl
  · rfl

/-- Counterexample to claim C4 as stated: a mail whose sender is also a
recipient has exactly one distinct qualifying outside participant, yet the
converter produces two events (the participant list is
`recipients + [sender]`, with the sender appended unconditionally). -/
theorem c4_sender_duplicate_counterexample :
    (get_mail_events { entityName := (fun _ => "Dup"),
                       entityCategory := (fun _ => EntityCategory.character) }
        [{ id := 1, name := "Main" }] (fun _ => false) [c4_mail]).length = 2 ∧
    (mail_outside_participants [1] (fun _ => false) c4_mail).length = 1 := by
  constructor
  · rfl
  · rfl

/-- Counterexample to claim C7 as stated: this contract's qualifying
counterparty exists (its acceptor, found by the priority order), but the
converter raises while building the summary (no assignee), so no list of
events — in particular not exactly one event — is produced. -/
theorem c7_missing_assignee_counterexample :
    contract_counterparty [1] (fun _ => false) c7_bad_contract =
      some { id := 61, name := "Acceptor", category := EntityCategory.character } ∧
    (get_character_contracts [{ id := 1, name := "Main" }] (fun _ => false)
        [c7_bad_contract]).toOption = none := by
  constructor
  · rfl
  · rfl

/-- Counterexample to claim C10 as stated: the event produced for a contact
with standing +5 has summary "Standings +5", not the bare signed standing
value "+5". -/
theorem c10_summary_not_bare_standing :
    get_contact_events [{ id := 1, name := "Main" }] (fun _ => false)
        [c10_contact] =
      [{ recruit := { id := 1, name := "Main" },
         other_entity := { id := 9001, name := "Target",
                           category := EntityCategory.character },
         summary := some "Standings +5" }] ∧
    ("Standings +5" : String) ≠ signed_standing 5 := by
  constructor
  · rfl
  · decide

/-- A `filterMap` whose body is an if-guarded `some` is a filter followed
by a map. -/
theorem filterMap_guard_eq_filter_map {α β : Type} (f : α → Option β)
    (q : α → Bool) (g : α → β)
    (hf : ∀ a, f a = if q a then some (g a) else none) :
    ∀ l : List α, l.filterMap f = (l.filter q).map g := by
  intro l
  induction l with
  | nil => rfl
  | cons a l ih =>
    rw [List.filterMap_cons, List.filter_cons, hf a]
    by_cases hq : q a = true
    · rw [if_pos hq, if_pos hq, List.map_cons, ih]
    · rw [if_neg hq, if_neg hq, ih]

/-- A `filterMap` whose body is everywhere `some` is a map. -/
theorem filterMap_congr_map {α β : Type} (f : α → Option β) (g : α → β) :
    ∀ l : List α, (∀ a ∈ l, f a = some (g a)) → l.filterMap f = l.map g := by
  intro l
  induction l with
  | nil => exact fun _ => rfl
  | cons a l ih =>
    intro h
    rw [List.filterMap_cons, h a (by simp), List.map_cons,
      ih fun x hx => h x (by simp [hx])]

/-- Claim C10, amended: a contact of an owned character produces no event
when its target is not a character, is an NPC, or is an owned character;
otherwise it produces exactly one event whose recruit is the holder, whose
other_entity is the target, whose summary is the string "Standings "
followed by the signed standing (not the bare signed value), and which has
no details, no timestamp and no isk_value. -/
theorem c10_contact_event_rule (owned : List Character) (npc : Nat → Bool)
    (cc : CharacterContact) (hmem : cc.character ∈ owned) :
    get_contact_events owned npc [cc] =
      if cc.eve_entity.is_character = true ∧ npc cc.eve_entity.id = false ∧
          cc.eve_entity.id ∉ owned.map Character.id
      then [{ recruit := cc.character, other_entity := cc.eve_entity,
              summary := some ("Standings " ++ signed_standing cc.standing),
              details := none, timestamp := none, isk_value := none }]
      else [] := by
  simp only [get_contact_events]
  by_cases h1 : cc.eve_entity.id ∈ owned.map Character.id
  · rw [if_neg (fun hC => hC.2.2 h1)]
    simp only [List.filter_cons, List.filter_nil, decide_eq_true h1,
      Bool.not_true, Bool.and_false, Bool.false_eq_true, if_false,
      List.filterMap_nil]
  · by_cases h2 : cc.eve_entity.is_character = true
    · by_cases h3 : npc cc.eve_entity.id = true
      · rw [if_neg (fun hC => Bool.eq_false_iff.mp hC.2.1 h3)]
        simp only [List.filter_cons, List.filter_nil, decide_eq_true hmem,
          decide_eq_false h1, Bool.not_false, Bool.and_true, if_true,
          Bool.true_and, List.filterMap_cons, List.filterMap_nil, h2, h3,
          Bool.not_true, Bool.false_eq_true, if_false, if_true]
      · rw [if_pos ⟨h2, Bool.eq_false_iff.mpr h3, h1⟩]
        simp only [List.filter_cons, List.filter_nil, decide_eq_true hmem,
          decide_eq_false h1, Bool.not_false, Bool.and_true, Bool.true_and,
          if_true, List.filterMap_cons, List.filterMap_nil, h2,
          Bool.not_true, Bool.false_eq_true, if_false,
          Bool.eq_false_iff.mpr h3]
    · rw [if_neg (fun hC => h2 hC.1)]
      have h2f : cc.eve_entity.is_character = false := Bool.eq_false_iff.mpr h2
      simp only [List.filter_cons, List.filter_nil, decide_eq_true hmem,
        decide_eq_false h1, Bool.not_false, Bool.and_true, Bool.true_and,
        if_true, List.filterMap_cons, List.filterMap_nil, h2f,
        Bool.not_false, if_true]

/-- Witness for C10: a qualifying contact with standing -10 yields exactly
its one event. -/
theorem c10_contact_event_rule_witness :
    get_contact_events [{ id := 1, name := "Main" }] (fun _ => false)
        [{ character := { id := 1, name := "Main" },
           eve_entity := { id := 7001, name := "Friend",
                           category := EntityCategory.character },
           standing := -10 }] =
      [{ recruit := { id := 1, name := "Main" },
         other_entity := { id := 7001, name := "Friend",
                           category := EntityCategory.character },
         summary := some ("Standings " ++ signed_standing (-10)),
         details := none, timestamp := none, isk_value := none }] := by
  rw [c10_contact_event_rule [{ id := 1, name := "Main" }] (fun _ => false)
    { character := { id := 1, name := "Main" },
      eve_entity := { id := 7001, name := "Friend",
                      category := EntityCategory.character },
      standing := -10 } (by decide)]
  decide

/-- Claim C5: for a transaction with a qualifying counterparty, an event is
emitted iff the average price is known and positive, the exact price ratio
is not strictly inside (1/10, 2), and quantity times unit price is at least
10,000,000; moreover the converter processes records independently (a
skipped record never affects the others) and on a single record it emits
exactly the per-record result. -/
theorem c5_wallet_tx_filter (owned : List Character) (npc : Nat → Bool)
    (tx : CharacterWalletTransaction)
    (hq : (tx_counterparty (owned.map Character.id) npc tx).isSome = true) :
    ((wallet_tx_event (owned.map Character.id) npc tx).isSome = true ↔
      ∃ a, tx.average_price = some a ∧ 0 < a ∧
        ¬((1 : Rat)/10 < tx.unit_price / a ∧ tx.unit_price / a < 2) ∧
        (10000000 : Rat) ≤ (tx.quantity : Rat) * tx.unit_price) ∧
    (∀ l1 l2 : List CharacterWalletTransaction,
      get_wallet_transactions owned npc (l1 ++ l2) =
        get_wallet_transactions owned npc l1 ++ get_wallet_transactions owned npc l2) ∧
    (tx.character ∈ owned →
      get_wallet_transactions owned npc [tx] =
        (wallet_tx_event (owned.map Character.id) npc tx).toList) := by
  refine ⟨?_, ?_, ?_⟩
  · obtain ⟨other, hother⟩ := Option.isSome_iff_exists.mp hq
    unfold wallet_tx_event
    rw [hother]
    unfold price_quotient
    cases hap : tx.average_price with
    | none => simp
    | some a =>
      dsimp only
      by_cases hle : a ≤ 0
      · rw [if_pos hle]
        dsimp only
        simp only [Option.isSome_none, Bool.false_eq_true, false_iff]
        rintro ⟨b, hb, hb0, -⟩
        rw [Option.some.injEq] at hb
        exact absurd (hb ▸ hb0) (not_lt.mpr hle)
      · rw [if_neg hle]
        dsimp only
        by_cases hmid : (1 : Rat)/10 < tx.unit_price / a ∧ tx.unit_price / a < 2
        · rw [if_pos hmid]
          simp only [Option.isSome_none, Bool.false_eq_true, false_iff]
          rintro ⟨b, hb, -, hbmid, -⟩
          rw [Option.some.injEq] at hb
          exact hbmid (hb ▸ hmid)
        · rw [if_neg hmid]
          by_cases htot : (tx.quantity : Rat) * tx.unit_price < 10000000
          · rw [if_pos htot]
            simp only [Option.isSome_none, Bool.false_eq_true, false_iff]
            rintro ⟨b, -, -, -, hble⟩
            exact absurd htot (not_lt.mpr hble)
          · rw [if_neg htot]
            simp only [Option.isSome_some, true_iff]
            exact ⟨a, rfl, lt_of_not_le hle, hmid, not_lt.mp htot⟩
  · intro l1 l2
    unfold get_wallet_transactions
    rw [List.filter_append, List.filterMap_append]
  · intro hmem
    unfold get_wallet_transactions
    rw [List.filter_cons, if_pos (by simpa using hmem), List.filter_nil,
      List.filterMap_cons, List.filterMap_nil]
    cases wallet_tx_event (owned.map Character.id) npc tx <;> rfl

/-- A transaction priced at exactly one tenth of the average (the retained
low boundary) with total value exactly 10,000,000. -/
def c5_tx : CharacterWalletTransaction :=
  { character := { id := 1, name := "Main" },
    client := some { id := 77, name := "Trader",
                     category := EntityCategory.character },
    quantity := 100000, unit_price := 100, average_price := some 1000,
    eve_type_name := "PLEX", is_buy := true, date := 123 }

/-- Witness for C5: the boundary transaction is emitted. -/
theorem c5_wallet_tx_filter_witness :
    (wallet_tx_event
        (([{ id := 1, name := "Main" }] : List Character).map Character.id)
        (fun _ => false) c5_tx).isSome = true :=
  ((c5_wallet_tx_filter [{ id := 1, name := "Main" }] (fun _ => false) c5_tx
      (by rfl)).1).mpr
    ⟨1000, rfl, by norm_num, by norm_num [c5_tx], by norm_num [c5_tx]⟩

/-- Every availability choice has a non-empty display label, so the
availability branch of `_contract_summary` always runs. -/
theorem availability_display_ne_empty (a : Availability) : a.display ≠ "" := by
  cases a <;> decide

/-- With an assignee present, `_contract_summary` returns normally. -/
theorem contract_summary_ok_of_assignee (c : CharacterContract) (a : EveEntity)
    (ha : c.assignee = some a) : ∃ s, contract_summary c = Except.ok s := by
  unfold contract_summary
  dsimp only
  rw [if_pos (availability_display_ne_empty c.availability), ha]
  exact ⟨_, rfl⟩

/-- Without an assignee, `_contract_summary` raises. -/
theorem contract_summary_error_no_assignee (c : CharacterContract)
    (ha : c.assignee = none) :
    contract_summary c =
      Except.error "AttributeError: NoneType object has no attribute name" := by
  unfold contract_summary
  dsimp only
  rw [if_pos (availability_display_ne_empty c.availability), ha]

/-- Evaluation of the contracts converter on one contract with a qualifying
counterparty and a successfully built summary. -/
theorem get_character_contracts_singleton (owned : List Character)
    (npc : Nat → Bool) (c : CharacterContract) (hmem : c.character ∈ owned)
    (other : EveEntity)
    (hother : contract_counterparty (owned.map Character.id) npc c = some other)
    (s : String) (hs : contract_summary c = Except.ok s) :
    get_character_contracts owned npc [c] = Except.ok
      [{ recruit := c.character, other_entity := other, summary := some s,
         details := some (contract_details c (isk_value c.items)),
         timestamp := contract_timestamp c,
         isk_value := isk_value c.items }] := by
  unfold get_character_contracts
  rw [List.filter_cons, if_pos (by simpa using hmem), List.filter_nil]
  unfold contracts_loop
  rw [hother, hs]
  rfl

/-- Claim C7, amended: for a contract of an owned character, the
counterparty is the first of assignee, acceptor, issuer that exists, is a
character, is not an NPC and is not owned; with no qualifying counterparty
the contract produces zero events; with a qualifying counterparty and an
assignee present it produces exactly one event using that counterparty;
but with a qualifying counterparty and no assignee the converter raises
while building the summary, so no events at all are produced. -/
theorem c7_contract_event_rule (owned : List Character) (npc : Nat → Bool)
    (c : CharacterContract) (hmem : c.character ∈ owned) :
    (contract_counterparty (owned.map Character.id) npc c = none →
      get_character_contracts owned npc [c] = Except.ok []) ∧
    (∀ other, contract_counterparty (owned.map Character.id) npc c = some other →
      c.assignee.isSome = true →
      ∃ ev, get_character_contracts owned npc [c] = Except.ok [ev] ∧
        ev.other_entity = other ∧ ev.recruit = c.character) ∧
    (∀ other, contract_counterparty (owned.map Character.id) npc c = some other →
      c.assignee = none →
      (get_character_contracts owned npc [c]).toOption = none) := by
  refine ⟨?_, ?_, ?_⟩
  · intro hnone
    unfold get_character_contracts
    rw [List.filter_cons, if_pos (by simpa using hmem), List.filter_nil]
    unfold contracts_loop
    rw [hnone]
    rfl
  · intro other hother hassign
    obtain ⟨a, ha⟩ := Option.isSome_iff_exists.mp hassign
    obtain ⟨s, hs⟩ := contract_summary_ok_of_assignee c a ha
    exact ⟨_, get_character_contracts_singleton owned npc c hmem other hother s hs,
      rfl, rfl⟩
  · intro other hother hnone
    unfold get_character_contracts
    rw [List.filter_cons, if_pos (by simpa using hmem), List.filter_nil]
    unfold contracts_loop
    rw [hother, contract_summary_error_no_assignee c hnone]
    rfl

/-- A contract whose assignee is the qualifying counterparty. -/
def c7_good_contract : CharacterContract :=
  { character := { id := 1, name := "Main" },
    issuer := none,
    assignee := some { id := 61, name := "Acceptor",
                       category := EntityCategory.character },
    acceptor := none,
    availability := Availability.personal,
    status_display := "outstanding",
    summary_str := "Item Exchange (outstanding)",
    title := "",
    price := none, reward := none, collateral := none, buyout := none,
    date_completed := none, date_expired := none,
    date_accepted := none, date_issued := some 90,
    items := [] }

/-- Witness for C7: one qualifying counterparty, one event. -/
theorem c7_contract_event_rule_witness :
    ∃ ev, get_character_contracts [{ id := 1, name := "Main" }] (fun _ => false)
        [c7_good_contract] = Except.ok [ev] ∧
      ev.other_entity =
        { id := 61, name := "Acceptor", category := EntityCategory.character } ∧
      ev.recruit = c7_good_contract.character :=
  (c7_contract_event_rule [{ id := 1, name := "Main" }] (fun _ => false)
      c7_good_contract (by decide)).2.1
    { id := 61, name := "Acceptor", category := EntityCategory.character }
    (by rfl) (by rfl)

/-- Claim C6: a contract with a qualifying counterparty (and a present
assignee, so that the summary builds) always emits its event — even when no
valuation is computable, in which case the isk_value is absent — and the
event's isk_value is the aggregate that sums quantity times average price
over exactly the items with non-negative raw quantity: when every such item
has a recorded price and at least one exists, it is precisely that sum. -/
theorem c6_contract_isk_rule (owned : List Character) (npc : Nat → Bool)
    (c : CharacterContract) (hmem : c.character ∈ owned)
    (hq : (contract_counterparty (owned.map Character.id) npc c).isSome = true)
    (ha : c.assignee.isSome = true) :
    ∃ ev, get_character_contracts owned npc [c] = Except.ok [ev] ∧
      ev.isk_value = isk_value c.items ∧
      ((∀ it ∈ c.items, ¬ it.raw_quantity < 0 → it.average_price.isSome = true) →
        c.items.filter (fun it => ! decide (it.raw_quantity < 0)) ≠ [] →
        isk_value c.items =
          some ((c.items.filter (fun it => ! decide (it.raw_quantity < 0))).map
            (fun it => (it.quantity : Rat) * it.average_price.getD 0)).sum) := by
  obtain ⟨other, hother⟩ := Option.isSome_iff_exists.mp hq
  obtain ⟨a, ha2⟩ := Option.isSome_iff_exists.mp ha
  obtain ⟨s, hs⟩ := contract_summary_ok_of_assignee c a ha2
  refine ⟨_, get_character_contracts_singleton owned npc c hmem other hother s hs,
    rfl, ?_⟩
  intro hall hne
  unfold isk_value
  dsimp only
  have hmap : (c.items.filter (fun it => ! decide (it.raw_quantity < 0))).filterMap
      (fun it => it.average_price.map (fun p => (it.quantity : Rat) * p)) =
      (c.items.filter (fun it => ! decide (it.raw_quantity < 0))).map
        (fun it => (it.quantity : Rat) * it.average_price.getD 0) := by
    apply filterMap_congr_map
    intro it hit
    rw [List.mem_filter] at hit
    obtain ⟨p, hp⟩ := Option.isSome_iff_exists.mp
      (hall it hit.1 (by simpa using hit.2))
    rw [hp]
    rfl
  rw [hmap, if_neg]
  simp only [List.isEmpty_eq_true, List.map_eq_nil_iff]
  exact hne

/-- A contract carrying one positive-quantity item worth 200 and one
negative-raw-quantity item worth 500. -/
def c6_contract : CharacterContract :=
  { character := { id := 1, name := "Main" },
    issuer := none,
    assignee := some { id := 62, name := "Buyer",
                       category := EntityCategory.character },
    acceptor := none,
    availability := Availability.personal,
    status_display := "finished",
    summary_str := "Item Exchange (finished)",
    title := "stuff",
    price := some 1, reward := none, collateral := none, buyout := none,
    date_completed := some 100, date_expired := none,
    date_accepted := none, date_issued := some 90,
    items := [{ quantity := 2, raw_quantity := 2, average_price := some 100,
                type_id := 34, name_display := "Tritanium" },
              { quantity := 1, raw_quantity := -1, average_price := some 500,
                type_id := 35, name_display := "Pyerite" }] }

/-- Witness for C6: the negative-raw-quantity item is excluded, so the
event's isk_value is 200, not -300 or -100. -/
theorem c6_contract_isk_rule_witness :
    ∃ ev, get_character_contracts [{ id := 1, name := "Main" }] (fun _ => false)
        [c6_contract] = Except.ok [ev] ∧ ev.isk_value = some 200 := by
  obtain ⟨ev, h1, h2, h3⟩ := c6_contract_isk_rule [{ id := 1, name := "Main" }]
    (fun _ => false) c6_contract (by decide) (by rfl) (by rfl)
  refine ⟨ev, h1, ?_⟩
  rw [h2]
  show isk_value c6_contract.items = some 200
  simp only [isk_value, c6_contract]
  norm_num [List.filter, List.filterMap, Option.map]

/-- Claim C4, amended: a mail of an owned character produces one event per
qualifying entry of the participant list `recipients + [sender]`, all
sharing the mail's summary, details and timestamp, one per participant
fetched by id; since the sender is appended unconditionally, the event
count equals the number N of distinct qualifying outside participants
exactly when the sender is not among the recipients, and equals N + 1 (a
duplicated counterparty) when the qualifying sender is also a qualifying
recipient. -/
theorem c4_mail_event_rule (db : EntityDb) (owned : List Character)
    (npc : Nat → Bool) (m : CharacterMail) (hmem : m.character ∈ owned)
    (hnd : (m.recipients.map MailEntity.id).Nodup) :
    get_mail_events db owned npc [m] =
      ((m.recipients ++ [m.sender]).filter
          (mail_participant_qualifies (owned.map Character.id) npc)).map
        (fun me => { recruit := m.character, other_entity := db.get me.id,
                     summary := some (mail_summary m),
                     details := some (get_mail_details m),
                     timestamp := m.timestamp, isk_value := none }) ∧
    (m.sender.id ∉ m.recipients.map MailEntity.id →
      (get_mail_events db owned npc [m]).length =
        (mail_outside_participants (owned.map Character.id) npc m).length) ∧
    (mail_participant_qualifies (owned.map Character.id) npc m.sender = true →
      m.sender.id ∈ (m.recipients.filter
          (mail_participant_qualifies (owned.map Character.id) npc)).map
            MailEntity.id →
      (get_mail_events db owned npc [m]).length =
        (mail_outside_participants (owned.map Character.id) npc m).length + 1) := by
  have hmain : get_mail_events db owned npc [m] =
      ((m.recipients ++ [m.sender]).filter
          (mail_participant_qualifies (owned.map Character.id) npc)).map
        (fun me => { recruit := m.character, other_entity := db.get me.id,
                     summary := some (mail_summary m),
                     details := some (get_mail_details m),
                     timestamp := m.timestamp, isk_value := none }) := by
    simp only [get_mail_events]
    rw [List.filter_cons, if_pos (by simpa using hmem), List.filter_nil,
      List.map_cons, List.map_nil, List.flatten_cons, List.flatten_nil,
      List.append_nil]
    apply filterMap_guard_eq_filter_map
    intro me
    unfold mail_participant_qualifies
    by_cases hA : me.id ∈ owned.map Character.id
    · rw [if_pos (decide_eq_true hA), decide_eq_true hA]
      simp
    · rw [if_neg (by simpa using hA), decide_eq_false hA]
      by_cases hB : (decide (me.category = EntityCategory.character) &&
          npc me.id) = true
      · rw [if_pos hB, hB]
        simp
      · rw [if_neg hB, Bool.eq_false_iff.mpr hB]
        simp
  have hAnodup : ((m.recipients.filter
      (mail_participant_qualifies (owned.map Character.id) npc)).map
        MailEntity.id).Nodup := by
    refine List.Nodup.sublist ?_ hnd
    exact List.Sublist.map MailEntity.id (List.filter_sublist m.recipients)
  refine ⟨hmain, ?_, ?_⟩
  · intro hnot
    rw [hmain, List.length_map]
    unfold mail_outside_participants
    rw [List.filter_append]
    by_cases hqs : mail_participant_qualifies (owned.map Character.id) npc
        m.sender = true
    · rw [List.filter_cons, if_pos hqs, List.filter_nil]
      have hdj : ((m.recipients.filter
          (mail_participant_qualifies (owned.map Character.id) npc)).map
            MailEntity.id ++ [m.sender].map MailEntity.id).Nodup := by
        rw [List.nodup_append]
        refine ⟨hAnodup, List.nodup_singleton _, ?_⟩
        intro x hx hx2
        simp only [List.map_cons, List.map_nil, List.mem_singleton] at hx2
        subst hx2
        apply hnot
        simp only [List.mem_map, List.mem_filter] at hx
        obtain ⟨me, ⟨hme, -⟩, hid⟩ := hx
        exact List.mem_map.mpr ⟨me, hme, hid⟩
      rw [List.map_append, List.Nodup.dedup hdj]
      simp
    · rw [List.filter_cons, if_neg hqs, List.filter_nil, List.append_nil,
        List.Nodup.dedup hAnodup, List.length_map]
  · intro hqs hsid
    rw [hmain, List.length_map]
    unfold mail_outside_participants
    rw [List.filter_append, List.filter_cons, if_pos hqs, List.filter_nil,
      List.map_append]
    have hregular : ((m.recipients.filter
        (mail_participant_qualifies (owned.map Character.id) npc)).map
          MailEntity.id ++ [m.sender].map MailEntity.id).dedup.length =
        ((m.recipients.filter
          (mail_participant_qualifies (owned.map Character.id) npc)).map
            MailEntity.id).length := by
      rw [← List.card_toFinset, List.toFinset_append]
      have hone : ([m.sender].map MailEntity.id).toFinset = {m.sender.id} := by
        simp
      rw [hone, Finset.union_eq_left.mpr (by simpa using hsid),
        List.toFinset_card_of_nodup hAnodup]
    rw [hregular]
    simp

/-- A mail with two distinct qualifying outside participants: recipient 50
and sender 60. -/
def c4w_mail : CharacterMail :=
  { character := { id := 1, name := "Main" },
    sender := { id := 60, name := "Sender", name_plus := "Sender",
                category := EntityCategory.character },
    recipients := [{ id := 50, name := "Friend", name_plus := "Friend",
                     category := EntityCategory.character }],
    subject := "o7", body_html := "hello", is_read := false,
    timestamp := some 77 }

/-- Witness for C4: with the sender not among the recipients, the event
count equals the number of distinct qualifying outside participants. -/
theorem c4_mail_event_rule_witness :
    (get_mail_events { entityName := (fun _ => "E"),
                       entityCategory := (fun _ => EntityCategory.character) }
        [{ id := 1, name := "Main" }] (fun _ => false) [c4w_mail]).length =
      (mail_outside_participants
        (([{ id := 1, name := "Main" }] : List Character).map Character.id)
        (fun _ => false) c4w_mail).length :=
  (c4_mail_event_rule { entityName := (fun _ => "E"),
                        entityCategory := (fun _ => EntityCategory.character) }
    [{ id := 1, name := "Main" }] (fun _ => false) c4w_mail
    (by decide) (by decide)).2.1 (by decide)

/-- Any event the contacts converter emits has an owned recruit and a
not-owned counterparty. -/
theorem mem_get_contact_events {owned : List Character} {npc : Nat → Bool}
    {contacts : List CharacterContact} {ev : CharacterEvent}
    (h : ev ∈ get_contact_events owned npc contacts) :
    ev.recruit ∈ owned ∧ ev.other_entity.id ∉ owned.map Character.id := by
  simp only [get_contact_events] at h
  obtain ⟨cc, hflt, hsome⟩ := List.mem_filterMap.mp h
  obtain ⟨hmem, hcond⟩ := List.mem_filter.mp hflt
  rw [Bool.and_eq_true] at hcond
  obtain ⟨hown, hnotid⟩ := hcond
  by_cases h1 : (! cc.eve_entity.is_character) = true
  · rw [if_pos h1] at hsome
    exact absurd hsome (by simp)
  · rw [if_neg h1] at hsome
    by_cases h2 : npc cc.eve_entity.id = true
    · rw [if_pos h2] at hsome
      exact absurd hsome (by simp)
    · rw [if_neg h2] at hsome
      obtain rfl := Option.some.inj hsome
      exact ⟨of_decide_eq_true hown, by simpa using hnotid⟩

/-- Any event the mail converter emits has an owned recruit and a
not-owned counterparty. -/
theorem mem_get_mail_events {db : EntityDb} {owned : List Character}
    {npc : Nat → Bool} {mails : List CharacterMail} {ev : CharacterEvent}
    (h : ev ∈ get_mail_events db owned npc mails) :
    ev.recruit ∈ owned ∧ ev.other_entity.id ∉ owned.map Character.id := by
  simp only [get_mail_events] at h
  obtain ⟨inner, hinner, hev⟩ := List.mem_flatten.mp h
  obtain ⟨m, hmf, rfl⟩ := List.mem_map.mp hinner
  obtain ⟨hm, hmo⟩ := List.mem_filter.mp hmf
  obtain ⟨me, hme, hsome⟩ := List.mem_filterMap.mp hev
  by_cases h1 : decide (me.id ∈ owned.map Character.id) = true
  · rw [if_pos h1] at hsome
    exact absurd hsome (by simp)
  · rw [if_neg h1] at hsome
    by_cases h2 : (decide (me.category = EntityCategory.character) &&
        npc me.id) = true
    · rw [if_pos h2] at hsome
      exact absurd hsome (by simp)
    · rw [if_neg h2] at hsome
      obtain rfl := Option.some.inj hsome
      exact ⟨of_decide_eq_true hmo, fun hmem => h1 (decide_eq_true hmem)⟩

/-- The shared counterparty loop never returns an owned character. -/
theorem first_qualifying_not_owned {character_ids : List Nat}
    {npc : Nat → Bool} :
    ∀ {l : List (Option EveEntity)} {e : EveEntity},
      first_qualifying character_ids npc l = some e → e.id ∉ character_ids := by
  intro l
  induction l with
  | nil =>
    intro e h
    exact absurd h (by simp [first_qualifying])
  | cons hd tl ih =>
    intro e h
    cases hd with
    | none => exact ih (by simpa [first_qualifying] using h)
    | some x =>
      rw [first_qualifying] at h
      by_cases h1 : (! x.is_character || npc x.id) = true
      · rw [if_pos h1] at h
        exact ih h
      · rw [if_neg h1] at h
        by_cases h2 : decide (x.id ∈ character_ids) = true
        · rw [if_pos h2] at h
          exact ih h
        · rw [if_neg h2] at h
          obtain rfl := Option.some.inj h
          exact fun hmem => h2 (decide_eq_true hmem)

/-- Any event the wallet journal converter emits has an owned recruit and a
not-owned counterparty. -/
theorem mem_get_wallet_journal {owned : List Character} {npc : Nat → Bool}
    {entries : List CharacterWalletJournalEntry} {ev : CharacterEvent}
    (h : ev ∈ get_wallet_journal_entries owned npc entries) :
    ev.recruit ∈ owned ∧ ev.other_entity.id ∉ owned.map Character.id := by
  simp only [get_wallet_journal_entries] at h
  obtain ⟨e, hef, hsome⟩ := List.mem_filterMap.mp h
  obtain ⟨hmem, hown⟩ := List.mem_filter.mp hef
  unfold journal_event at hsome
  cases hcp : journal_counterparty (owned.map Character.id) npc e with
  | none =>
    rw [hcp] at hsome
    exact absurd hsome (by simp)
  | some other =>
    rw [hcp] at hsome
    dsimp only at hsome
    by_cases h1 : e.ref_type ≠ "player_donation"
    · rw [if_pos h1] at hsome
      exact absurd hsome (by simp)
    · rw [if_neg h1] at hsome
      obtain rfl := Option.some.inj hsome
      exact ⟨of_decide_eq_true hown, first_qualifying_not_owned hcp⟩

/-- The wallet transaction counterparty is never an owned character. -/
theorem tx_counterparty_not_owned {character_ids : List Nat}
    {npc : Nat → Bool} {tx : CharacterWalletTransaction} {e : EveEntity}
    (h : tx_counterparty character_ids npc tx = some e) :
    e.id ∉ character_ids := by
  unfold tx_counterparty at h
  cases hc : tx.client with
  | none =>
    rw [hc] at h
    exact absurd h (by simp)
  | some client =>
    rw [hc] at h
    dsimp only at h
    by_cases h1 : (! client.is_character || npc client.id) = true
    · rw [if_pos h1] at h
      exact absurd h (by simp)
    · rw [if_neg h1] at h
      by_cases h2 : decide (client.id ∈ character_ids) = true
      · rw [if_pos h2] at h
        exact absurd h (by simp)
      · rw [if_neg h2] at h
        obtain rfl := Option.some.inj h
        exact fun hmem => h2 (decide_eq_true hmem)

/-- Any event the wallet transaction converter emits has an owned recruit
and a not-owned counterparty. -/
theorem mem_get_wallet_transactions {owned : List Character}
    {npc : Nat → Bool} {txs : List CharacterWalletTransaction}
    {ev : CharacterEvent} (h : ev ∈ get_wallet_transactions owned npc txs) :
    ev.recruit ∈ owned ∧ ev.other_entity.id ∉ owned.map Character.id := by
  simp only [get_wallet_transactions] at h
  obtain ⟨tx, htf, hsome⟩ := List.mem_filterMap.mp h
  obtain ⟨hmem, hown⟩ := List.mem_filter.mp htf
  unfold wallet_tx_event at hsome
  cases hcp : tx_counterparty (owned.map Character.id) npc tx with
  | none =>
    rw [hcp] at hsome
    exact absurd hsome (by simp)
  | some other =>
    rw [hcp] at hsome
    cases hr : price_quotient tx with
    | none =>
      rw [hr] at hsome
      exact absurd hsome (by simp)
    | some r =>
      rw [hr] at hsome
      dsimp only at hsome
      by_cases h1 : (1 : Rat)/10 < r ∧ r < 2
      · rw [if_pos h1] at hsome
        exact absurd hsome (by simp)
      · rw [if_neg h1] at hsome
        by_cases h2 : (tx.quantity : Rat) * tx.unit_price < 10000000
        · rw [if_pos h2] at hsome
          exact absurd hsome (by simp)
        · rw [if_neg h2] at hsome
          obtain rfl := Option.some.inj hsome
          exact ⟨of_decide_eq_true hown, tx_counterparty_not_owned hcp⟩

/-- Any event of an `ok` run of the contracts loop comes from a processed
contract, uses its qualifying counterparty and its character. -/
theorem contracts_loop_mem {character_ids : List Nat} {npc : Nat → Bool} :
    ∀ {cs : List CharacterContract} {evs : List CharacterEvent},
      contracts_loop character_ids npc cs = Except.ok evs →
      ∀ ev ∈ evs, ∃ c, c ∈ cs ∧
        contract_counterparty character_ids npc c = some ev.other_entity ∧
        ev.recruit = c.character := by
  intro cs
  induction cs with
  | nil =>
    intro evs h ev hev
    obtain rfl : evs = ([] : List CharacterEvent) := by
      simp only [contracts_loop, Except.ok.injEq] at h
      exact h.symm
    exact absurd hev (by simp)
  | cons c rest ih =>
    intro evs h ev hev
    unfold contracts_loop at h
    cases hcp : contract_counterparty character_ids npc c with
    | none =>
      rw [hcp] at h
      obtain ⟨c2, hc2, hcp2, hrec⟩ := ih h ev hev
      exact ⟨c2, List.mem_cons_of_mem c hc2, hcp2, hrec⟩
    | some other =>
      rw [hcp] at h
      dsimp only at h
      cases hs : contract_summary c with
      | error e2 =>
        rw [hs] at h
        exact absurd h (by simp)
      | ok s =>
        rw [hs] at h
        dsimp only at h
        cases hr : contracts_loop character_ids npc rest with
        | error e2 =>
          rw [hr] at h
          exact absurd h (by simp)
        | ok evs2 =>
          rw [hr] at h
          dsimp only at h
          rw [Except.ok.injEq] at h
          subst h
          rcases List.mem_cons.mp hev with heq | hmem2
          · subst heq
            exact ⟨c, List.mem_cons_self c rest, hcp, rfl⟩
          · obtain ⟨c2, hc2, hcp2, hrec⟩ := ih hr ev hmem2
            exact ⟨c2, List.mem_cons_of_mem c hc2, hcp2, hrec⟩

/-- Claim C9: every event an `ok` run of the aggregator returns attaches to
an owned recruit, has a counterparty outside the owned id set, and its
recruit and counterparty identities always differ — no converter emits a
self-event. -/
theorem c9_event_parties (db : Database) (owned : List Character)
    (npc : Nat → Bool) (evs : List CharacterEvent)
    (h : get_all_events db owned npc = Except.ok evs) :
    ∀ ev ∈ evs, ev.recruit ∈ owned ∧
      ev.other_entity.id ∉ owned.map Character.id ∧
      ev.recruit.id ≠ ev.other_entity.id := by
  unfold get_all_events at h
  cases hc : get_character_contracts owned npc db.contracts with
  | error e =>
    rw [hc] at h
    exact absurd h (by simp)
  | ok contract_evs =>
    rw [hc] at h
    dsimp only at h
    rw [Except.ok.injEq] at h
    subst h
    intro ev hev
    have key : ev.recruit ∈ owned ∧
        ev.other_entity.id ∉ owned.map Character.id := by
      simp only [List.mem_append] at hev
      rcases hev with (((h1 | h2) | h3) | h4) | h5
      · exact mem_get_contact_events h1
      · exact mem_get_mail_events h2
      · unfold get_character_contracts at hc
        obtain ⟨c, hcmem, hcp, hrec⟩ := contracts_loop_mem hc ev h3
        rw [List.mem_filter] at hcmem
        refine ⟨?_, first_qualifying_not_owned hcp⟩
        rw [hrec]
        exact of_decide_eq_true hcmem.2
      · exact mem_get_wallet_journal h4
      · exact mem_get_wallet_transactions h5
    refine ⟨key.1, key.2, ?_⟩
    intro heq
    exact key.2 (heq ▸ List.mem_map_of_mem Character.id key.1)

/-- A one-contact database for the aggregator invariant witness. -/
def c9_db : Database :=
  { contacts := [{ character := { id := 100, name := "Main Pilot" },
                   eve_entity := { id := 9001, name := "Other Guy",
                                   category := EntityCategory.character },
                   standing := 5 }],
    mails := [], contracts := [], journal := [], transactions := [],
    entities := { entityName := (fun _ => ""),
                  entityCategory := (fun _ => EntityCategory.unknown) } }

/-- The single event `c9_db` yields. -/
def c9_event : CharacterEvent :=
  { recruit := { id := 100, name := "Main Pilot" },
    other_entity := { id := 9001, name := "Other Guy",
                      category := EntityCategory.character },
    summary := some "Standings +5",
    details := none, timestamp := none, isk_value := none }

/-- Witness for C9 on a concrete one-event run. -/
theorem c9_event_parties_witness :
    c9_event.recruit ∈ ([{ id := 100, name := "Main Pilot" }] : List Character) ∧
    c9_event.other_entity.id ∉
      ([{ id := 100, name := "Main Pilot" }] : List Character).map Character.id ∧
    c9_event.recruit.id ≠ c9_event.other_entity.id :=
  c9_event_parties c9_db [{ id := 100, name := "Main Pilot" }]
    (fun _ => false) [c9_event] (by rfl) c9_event (by simp)

end Recruit
